import Mathlib

/-!
Formal model of the persisted-state consistency verifier (`verify` package)
and of the v2 request dispatch pipeline (`etcdserver` package) of this etcd
fork, shallowly embedded from the Go sources.  Machine integers (`uint64`)
are modelled as `Nat`: none of the verified code performs arithmetic that
could overflow, it only compares and copies these values.
-/

namespace Etcd

/-- `raftpb.HardState`: the last durably recorded consensus state, read from
the WAL tail. -/
structure HardState where
  term : Nat
  vote : Nat
  commit : Nat
deriving DecidableEq

/-- `walpb.Snapshot`: a snapshot marker recorded in the WAL. -/
structure Snapshot where
  index : Nat
  term : Nat
deriving DecidableEq

/-- The two durable values the verifier reads from the backend via
`cindex.ReadConsistentIndex(tx)`: the consistent index and its term. -/
structure Backend where
  consistentIndex : Nat
  consistentTerm : Nat
deriving DecidableEq

/-- `verify.Config` (the `Logger` field is presentation glue and is dropped). -/
structure Config where
  dataDir : String
  exactIndex : Bool
deriving DecidableEq

/-- The errors `validateConsistentIndex` and `validateWal` can produce.  Each
invariant-violation constructor carries both observed values, mirroring the
`fmt.Errorf` calls in the source. -/
inductive VerifyError where
  | exactIndexMismatch (index commit : Nat)
  | exactTermMismatch (term hsTerm : Nat)
  | indexExceedsCommit (index commit : Nat)
  | termExceedsHsTerm (term hsTerm : Nat)
  | indexBelowSnapshot (index snapIndex : Nat)
  | walStructural (msg : String)
deriving DecidableEq

/-- The message text of each error, as formatted by the source's
`fmt.Errorf` calls. -/
def VerifyError.message : VerifyError → String
  | .exactIndexMismatch i c =>
      "backend.ConsistentIndex (" ++ toString i ++ ") expected == WAL.HardState.commit (" ++ toString c ++ ")"
  | .exactTermMismatch t ht =>
      "backend.Term (" ++ toString t ++ ") expected == WAL.HardState.term, (" ++ toString ht ++ ")"
  | .indexExceedsCommit i c =>
      "backend.ConsistentIndex (" ++ toString i ++ ")必须是<= WAL.HardState.commit (" ++ toString c ++ ")"
  | .termExceedsHsTerm t ht =>
      "backend.Term (" ++ toString t ++ ")必须是<= WAL.HardState.term, (" ++ toString ht ++ ")"
  | .indexBelowSnapshot i s =>
      "backend.ConsistentIndex (" ++ toString i ++ ")必须是>= last snapshot index (" ++ toString s ++ ")"
  | .walStructural m => m

/-- `verify.validateConsistentIndex`: the guard chain of the Go function,
with `index`/`term` the values read from the backend transaction. -/
def validateConsistentIndex (cfg : Config) (hardstate : HardState) (snapshot : Snapshot)
    (be : Backend) : Except VerifyError Unit :=
  let index := be.consistentIndex
  let term := be.consistentTerm
  if cfg.exactIndex && index != hardstate.commit then
    .error (.exactIndexMismatch index hardstate.commit)
  else if cfg.exactIndex && term != hardstate.term then
    .error (.exactTermMismatch term hardstate.term)
  else if index > hardstate.commit then
    .error (.indexExceedsCommit index hardstate.commit)
  else if term > hardstate.term then
    .error (.termExceedsHsTerm term hardstate.term)
  else if index < snapshot.index then
    .error (.indexBelowSnapshot index snapshot.index)
  else
    .ok ()

/-- The consistent-index validation as the spec words it: evaluate, in order,
exact index equality, exact term equality, index ≤ commit, term ≤ hardstate
term, index ≥ snapshot index, and return the first violated bound together
with both observed values. -/
def claimedFirstViolation (cfg : Config) (hardstate : HardState) (snapshot : Snapshot)
    (be : Backend) : Except VerifyError Unit :=
  if cfg.exactIndex && be.consistentIndex != hardstate.commit then
    .error (.exactIndexMismatch be.consistentIndex hardstate.commit)
  else if cfg.exactIndex && be.consistentTerm != hardstate.term then
    .error (.exactTermMismatch be.consistentTerm hardstate.term)
  else if ¬ be.consistentIndex ≤ hardstate.commit then
    .error (.indexExceedsCommit be.consistentIndex hardstate.commit)
  else if ¬ be.consistentTerm ≤ hardstate.term then
    .error (.termExceedsHsTerm be.consistentTerm hardstate.term)
  else if ¬ snapshot.index ≤ be.consistentIndex then
    .error (.indexBelowSnapshot be.consistentIndex snapshot.index)
  else
    .ok ()

/-- C1 counterexample: with `ExactIndex=false`, `S = 0 ≤ I = 0 ≤ C = 0` — the
claim's stated success condition for non-exact mode — `validateConsistentIndex`
nevertheless fails, because the backend term 5 exceeds the HardState term 3:
the non-exact path also enforces `Term ≤ HardState.Term`, which the claim's
"succeeds iff" clause omits. -/
theorem validateConsistentIndex_claim_counterexample :
    (0 ≤ 0 ∧ 0 ≤ 0) ∧
    validateConsistentIndex ⟨"d", false⟩ ⟨3, 0, 0⟩ ⟨0, 0⟩ ⟨0, 5⟩ =
      .error (.termExceedsHsTerm 5 3) :=
  ⟨⟨le_refl 0, le_refl 0⟩, rfl⟩

/-- C1 (amended): `validateConsistentIndex` succeeds iff
`S ≤ I ≤ C` **and `T ≤ HT`** (and, in exact mode, additionally `I = C` and
`T = HT`); moreover it always returns exactly the first violated invariant in
the claimed order, with both observed values. -/
theorem validateConsistentIndex_first_violation (cfg : Config) (hardstate : HardState)
    (snapshot : Snapshot) (be : Backend) :
    validateConsistentIndex cfg hardstate snapshot be =
        claimedFirstViolation cfg hardstate snapshot be ∧
    (validateConsistentIndex cfg hardstate snapshot be = .ok () ↔
      ((cfg.exactIndex = true →
          be.consistentIndex = hardstate.commit ∧ be.consistentTerm = hardstate.term) ∧
        be.consistentIndex ≤ hardstate.commit ∧
        be.consistentTerm ≤ hardstate.term ∧
        snapshot.index ≤ be.consistentIndex)) := by
  obtain ⟨dir, ex⟩ := cfg
  unfold validateConsistentIndex claimedFirstViolation
  cases ex <;> simp <;> split_ifs <;> simp_all

/-- Witness for C1's amended theorem at a concrete healthy exact-mode state. -/
theorem validateConsistentIndex_first_violation_witness :
    validateConsistentIndex ⟨"d", true⟩ ⟨2, 0, 10⟩ ⟨5, 1⟩ ⟨10, 2⟩ = .ok () :=
  (validateConsistentIndex_first_violation ⟨"d", true⟩ ⟨2, 0, 10⟩ ⟨5, 1⟩ ⟨10, 2⟩).2.mpr
    ⟨fun _ => ⟨rfl, rfl⟩, by decide, by decide, by decide⟩

/-- Modelled from the spec: the WAL-reader collaborators
`wal.ValidSnapshotEntries` (the ordered list of valid snapshot markers
recorded in the WAL directory, or a structural error) and `wal.Verify`
(the hard state re-derived consistently with a given snapshot marker, or a
structural error) are not among the sources; a `Wal` packages their results
for one data directory. -/
structure Wal where
  validSnapshotEntries : Except String (List Snapshot)
  verifyHardState : Snapshot → Except String HardState

/-- Possible results of `verify.validateWal`, with the Go panic (an
out-of-range slice index) as an explicit outcome. -/
inductive WalResult where
  | ok (snapshot : Snapshot) (hardstate : HardState)
  | err (e : VerifyError)
  | panicked
deriving DecidableEq

/-- `verify.validateWal`: returns the last valid snapshot marker and the
re-derived hard state.  When `ValidSnapshotEntries` succeeds with an empty
list, the Go code evaluates `walSnaps[len(walSnaps)-1]` on an empty slice and
panics. -/
def validateWal (w : Wal) : WalResult :=
  match w.validSnapshotEntries with
  | .error e => .err (.walStructural e)
  | .ok walSnaps =>
    match walSnaps.getLast? with
    | none => .panicked
    | some snapshot =>
      match w.verifyHardState snapshot with
      | .error e => .err (.walStructural e)
      | .ok hardstate => .ok snapshot hardstate

/-- How a call to `Verify` / its wrappers concludes at the process level:
a returned value (`none` = success, `some e` = returned error), a propagated
panic, or process termination (`Logger.Fatal`). -/
inductive Outcome where
  | returned (e : Option VerifyError)
  | panicked
  | exited
deriving DecidableEq

/-- `verify.Verify`: validate the WAL, then cross-check the backend's
consistent index.  The deferred `recover` in the Go source re-panics, so a
panic in `validateWal` propagates; errors are returned. -/
def Verify (cfg : Config) (w : Wal) (be : Backend) : Outcome :=
  match validateWal w with
  | .panicked => .panicked
  | .err e => .returned (some e)
  | .ok snapshot hardstate =>
    match validateConsistentIndex cfg hardstate snapshot be with
    | .error e => .returned (some e)
    | .ok () => .returned none

/-- `verify.ENV_VERIFY`: the name of the gating environment variable. -/
def ENV_VERIFY : String := "ETCD_VERIFY"

/-- `verify.ENV_VERIFY_ALL_VALUE`: the value enabling verification. -/
def ENV_VERIFY_ALL_VALUE : String := "all"

/-- `verify.VerifyIfEnabled`: `env` models `os.Getenv(ENV_VERIFY)`. -/
def VerifyIfEnabled (env : String) (cfg : Config) (w : Wal) (be : Backend) : Outcome :=
  if env = ENV_VERIFY_ALL_VALUE then Verify cfg w be else .returned none

/-- `verify.MustVerifyIfEnabled`: `Logger.Fatal` (process exit) when the
enabled verification returns an error; a panic propagates unchanged. -/
def MustVerifyIfEnabled (env : String) (cfg : Config) (w : Wal) (be : Backend) : Outcome :=
  match VerifyIfEnabled env cfg w be with
  | .returned (some _) => .exited
  | .returned none => .returned none
  | .panicked => .panicked
  | .exited => .exited

/-- A WAL whose directory scan fails (unreadable log). -/
def unreadableWal : Wal := ⟨.error "unreadable", fun _ => .ok ⟨0, 0, 0⟩⟩

/-- A readable WAL with no valid snapshot entries. -/
def emptyWal : Wal := ⟨.ok [], fun _ => .ok ⟨0, 0, 0⟩⟩

/-- C6 counterexample: when `ValidSnapshotEntries` succeeds but yields no
valid snapshot entries, `validateWal` indexes `walSnaps[len(walSnaps)-1]` on
an empty slice and panics — and `Verify` re-panics — instead of returning a
structural error as the claim states. -/
theorem validateWal_claim_counterexample :
    validateWal emptyWal = .panicked ∧
    Verify ⟨"d", false⟩ emptyWal ⟨0, 0⟩ = .panicked :=
  ⟨rfl, rfl⟩

/-- C6 (amended): an unreadable log (a `ValidSnapshotEntries` error) or a
failed `wal.Verify` makes `validateWal` — and hence `Verify` — return that
structural error; but a readable log with no valid snapshot entries makes
`validateWal` panic instead of returning an error. -/
theorem validateWal_structural (cfg : Config) (w : Wal) (be : Backend) :
    (∀ m, w.validSnapshotEntries = .error m →
        validateWal w = .err (.walStructural m) ∧
        Verify cfg w be = .returned (some (.walStructural m))) ∧
    (∀ snaps snapshot m, w.validSnapshotEntries = .ok snaps →
        snaps.getLast? = some snapshot →
        w.verifyHardState snapshot = .error m →
        validateWal w = .err (.walStructural m) ∧
        Verify cfg w be = .returned (some (.walStructural m))) ∧
    (w.validSnapshotEntries = .ok [] → validateWal w = .panicked) := by
  refine ⟨fun m hm => ?_, fun snaps snapshot m hs hl hv => ?_, fun he => ?_⟩
  · have h : validateWal w = .err (.walStructural m) := by
      unfold validateWal; rw [hm]
    exact ⟨h, by unfold Verify; rw [h]⟩
  · have h : validateWal w = .err (.walStructural m) := by
      simp [validateWal, hs, hl, hv]
    exact ⟨h, by unfold Verify; rw [h]⟩
  · unfold validateWal; rw [he]; rfl

/-- Witness for C6's amended theorem: an unreadable WAL directory. -/
theorem validateWal_structural_witness :
    validateWal unreadableWal = .err (.walStructural "unreadable") ∧
    Verify ⟨"d", false⟩ unreadableWal ⟨0, 0⟩ =
      .returned (some (.walStructural "unreadable")) :=
  (validateWal_structural ⟨"d", false⟩ unreadableWal ⟨0, 0⟩).1 "unreadable" rfl

/-- Helper: `Verify` can only return a value or propagate a panic. -/
theorem verify_result_returns_or_panics (cfg : Config) (w : Wal) (be : Backend) :
    Verify cfg w be ≠ .exited := by
  unfold Verify
  cases hw : validateWal w with
  | ok snapshot hardstate =>
      cases hc : validateConsistentIndex cfg hardstate snapshot be <;> simp [hc]
  | err e => simp
  | panicked => simp

/-- C7: `Verify` (and `VerifyIfEnabled`) never terminates the process — on a
validation failure the error is returned as a value — and a process exit can
arise only from `MustVerifyIfEnabled`, only when verification is enabled and
`Verify` returns an error. -/
theorem verify_never_exits (env : String) (cfg : Config) (w : Wal) (be : Backend) :
    Verify cfg w be ≠ .exited ∧
    VerifyIfEnabled env cfg w be ≠ .exited ∧
    (MustVerifyIfEnabled env cfg w be = .exited →
      env = ENV_VERIFY_ALL_VALUE ∧ ∃ e, Verify cfg w be = .returned (some e)) := by
  have hv := verify_result_returns_or_panics cfg w be
  refine ⟨hv, ?_, ?_⟩
  · unfold VerifyIfEnabled
    split <;> simp [hv]
  · intro hm
    unfold MustVerifyIfEnabled VerifyIfEnabled at hm
    by_cases he : env = ENV_VERIFY_ALL_VALUE
    · rw [if_pos he] at hm
      refine ⟨he, ?_⟩
      cases hV : Verify cfg w be with
      | returned e =>
          cases e with
          | none => rw [hV] at hm; simp at hm
          | some e => exact ⟨e, rfl⟩
      | panicked => rw [hV] at hm; simp at hm
      | exited => exact absurd hV hv
    · rw [if_neg he] at hm
      simp at hm

/-- Witness for C7 at concrete inputs: verifying an unreadable directory never
exits, and the enabled must-verify exit implies a returned `Verify` error. -/
theorem verify_never_exits_witness :
    Verify ⟨"d", false⟩ unreadableWal ⟨0, 0⟩ ≠ .exited ∧
    ("all" = ENV_VERIFY_ALL_VALUE ∧
      ∃ e, Verify ⟨"d", false⟩ unreadableWal ⟨0, 0⟩ = .returned (some e)) :=
  ⟨(verify_never_exits "off" ⟨"d", false⟩ unreadableWal ⟨0, 0⟩).1,
   (verify_never_exits "all" ⟨"d", false⟩ unreadableWal ⟨0, 0⟩).2.2 rfl⟩

/-- C8: `VerifyIfEnabled` runs verification exactly when the `ETCD_VERIFY`
value is `"all"`; for every other value it returns success independently of
the directory contents; and `MustVerifyIfEnabled` terminates the process
exactly when the enabled verification returns a non-nil error. -/
theorem verifyIfEnabled_gating (env : String) (cfg : Config) (w : Wal) (be : Backend) :
    (env = ENV_VERIFY_ALL_VALUE → VerifyIfEnabled env cfg w be = Verify cfg w be) ∧
    (env ≠ ENV_VERIFY_ALL_VALUE → VerifyIfEnabled env cfg w be = .returned none) ∧
    (MustVerifyIfEnabled env cfg w be = .exited ↔
      ∃ e, VerifyIfEnabled env cfg w be = .returned (some e)) := by
  refine ⟨fun he => by simp [VerifyIfEnabled, he], fun he => by simp [VerifyIfEnabled, he], ?_⟩
  unfold MustVerifyIfEnabled
  cases hV : VerifyIfEnabled env cfg w be with
  | returned e => cases e <;> simp
  | panicked => simp
  | exited =>
      exfalso
      revert hV
      unfold VerifyIfEnabled
      split
      · exact fun h => verify_result_returns_or_panics cfg w be h
      · simp

/-- Witness for C8: a disabled toggle skips an unreadable directory, the
enabled must-verify wrapper exits on it. -/
theorem verifyIfEnabled_gating_witness :
    VerifyIfEnabled "off" ⟨"d", false⟩ unreadableWal ⟨0, 0⟩ = .returned none ∧
    MustVerifyIfEnabled "all" ⟨"d", false⟩ unreadableWal ⟨0, 0⟩ = .exited :=
  ⟨(verifyIfEnabled_gating "off" ⟨"d", false⟩ unreadableWal ⟨0, 0⟩).2.1 (by decide),
   (verifyIfEnabled_gating "all" ⟨"d", false⟩ unreadableWal ⟨0, 0⟩).2.2.mpr
     ⟨.walStructural "unreadable", rfl⟩⟩

/-! ## The v2 request dispatch pipeline (`etcdserver` package). -/

/-- The context-error kinds (`context.Canceled`, `context.DeadlineExceeded`). -/
inductive CtxErr where
  | canceled
  | deadlineExceeded
deriving DecidableEq

/-- The typed errors the dispatch pipeline produces or forwards. -/
inductive Err where
  | errUnknownMethod
  | errStopped
  | errTimeout
  | errTimeoutDueToLeaderFail
  | errTimeoutDueToConnectionLost
  | errCanceled
  | applyErr (code : Nat)
  | marshalErr (code : Nat)
  | storeErr (code : Nat)
deriving DecidableEq

/-- Side effects of one dispatched request on the collaborators: the
Pending-Call Table (`s.w.Register` / `s.w.Trigger`), the consensus layer
(`s.r.Propose`), and the local v2 store (`store.Get` / `store.Watch`). -/
inductive Effect where
  | register (id : Nat)
  | propose (data : List Nat)
  | trigger (id : Nat)
  | storeGet (path : String) (recursive sorted : Bool)
  | storeWatch (path : String) (recursive stream : Bool) (since : Nat)
deriving DecidableEq

/-- `etcdserver.Response`: events and watchers of the external v2 store are
abstracted to numeric handles. -/
structure Response where
  term : Nat := 0
  index : Nat := 0
  event : Option Nat := none
  watcher : Option Nat := none
  err : Option Err := none
deriving DecidableEq

/-- The Go zero value `Response{}`. -/
def Response.empty : Response := {}

/-- `etcdserver.RequestV2` (`pb.Request`), restricted to the fields the
dispatch pipeline reads or writes. -/
structure RequestV2 where
  id : Nat := 0
  method : String := ""
  path : String := ""
  val : String := ""
  quorum : Bool := false
  wait : Bool := false
  recursive : Bool := false
  sorted : Bool := false
  stream : Bool := false
  since : Nat := 0
deriving DecidableEq

/-- What one handler call produces: the `(Response, error)` pair of the Go
signature, plus the trace of collaborator side effects it performed. -/
structure HResult where
  resp : Response
  err : Option Err
  effects : List Effect
deriving DecidableEq

/-- Model of the external `v2store.Store` operations the handlers use:
`get(path, recursive, sorted)` and `watch(path, recursive, stream, since)`,
each yielding an optional event/watcher handle and an optional error. -/
structure V2Store where
  get : String → Bool → Bool → Option Nat × Option Err
  watch : String → Bool → Bool → Nat → Option Nat × Option Err

/-- `reqV2HandlerStore.Get`: a waiting GET opens a watcher, otherwise the
store is read synchronously; no consensus interaction. -/
def reqV2HandlerStore.Get (store : V2Store) (r : RequestV2) : HResult :=
  if r.wait then
    let wc := store.watch r.path r.recursive r.stream r.since
    ⟨{ Response.empty with watcher := wc.1 }, wc.2,
      [.storeWatch r.path r.recursive r.stream r.since]⟩
  else
    let ev := store.get r.path r.recursive r.sorted
    ⟨{ Response.empty with event := ev.1 }, ev.2,
      [.storeGet r.path r.recursive r.sorted]⟩

/-- `reqV2HandlerStore.Head`: always a synchronous store read. -/
def reqV2HandlerStore.Head (store : V2Store) (r : RequestV2) : HResult :=
  let ev := store.get r.path r.recursive r.sorted
  ⟨{ Response.empty with event := ev.1 }, ev.2,
    [.storeGet r.path r.recursive r.sorted]⟩

/-- `etcdserver.RequestV2Handler`: the six-method routing interface. -/
structure RequestV2Handler where
  post : RequestV2 → HResult
  put : RequestV2 → HResult
  delete : RequestV2 → HResult
  qget : RequestV2 → HResult
  get : RequestV2 → HResult
  head : RequestV2 → HResult

/-- Which of the three concurrent events of `processRaftRequest`'s select
fires first: apply-result delivery on the registered channel, the caller's
context ending (with the context error kind and the elapsed time), or the
server's stopping signal. -/
inductive WaitEvent where
  | delivered (x : Response)
  | ctxDone (ce : CtxErr) (elapsed : Nat)
  | stopped
deriving DecidableEq

/-- The `EtcdServer` state and collaborators `processRaftRequest` and `Do`
use: the fresh request id (`reqIDGen.Next`), the current term and committed
index, the local v2 store, protobuf serialization of a request
(`pb.Request.Marshal`), and the context-error classifier
(`parseProposeCtxErr`, external to the sources). -/
structure EtcdServer where
  nextID : Nat
  term : Nat
  committedIndex : Nat
  v2store : V2Store
  marshal : RequestV2 → Except Err (List Nat)
  parseProposeCtxErr : CtxErr → Nat → Err

/-- `reqV2HandlerEtcdServer.processRaftRequest`: marshal, register a pending
slot, propose, then suspend on the three events; on context end the slot is
retired with `Trigger(id, nil)`, on shutdown it is abandoned. -/
def processRaftRequest (s : EtcdServer) (r : RequestV2) (ev : WaitEvent) : HResult :=
  match s.marshal r with
  | .error e => ⟨Response.empty, some e, []⟩
  | .ok data =>
    match ev with
    | .delivered x => ⟨x, x.err, [.register r.id, .propose data]⟩
    | .ctxDone ce elapsed =>
        ⟨Response.empty, some (s.parseProposeCtxErr ce elapsed),
          [.register r.id, .propose data, .trigger r.id]⟩
    | .stopped =>
        ⟨Response.empty, some .errStopped, [.register r.id, .propose data]⟩

/-- `reqV2HandlerEtcdServer`: mutating/quorum methods go through consensus,
GET and HEAD go to the embedded store handler. -/
def reqV2HandlerEtcdServer (s : EtcdServer) (ev : WaitEvent) : RequestV2Handler where
  post := fun r => processRaftRequest s r ev
  put := fun r => processRaftRequest s r ev
  delete := fun r => processRaftRequest s r ev
  qget := fun r => processRaftRequest s r ev
  get := fun r => reqV2HandlerStore.Get s.v2store r
  head := fun r => reqV2HandlerStore.Head s.v2store r

/-- The `switch r.Method` of `Handle`, applied after the quorum-GET rewrite. -/
def handleSwitch (r : RequestV2) (v2api : RequestV2Handler) : RequestV2 × HResult :=
  if r.method = "POST" then (r, v2api.post r)
  else if r.method = "PUT" then (r, v2api.put r)
  else if r.method = "DELETE" then (r, v2api.delete r)
  else if r.method = "QGET" then (r, v2api.qget r)
  else if r.method = "GET" then (r, v2api.get r)
  else if r.method = "HEAD" then (r, v2api.head r)
  else (r, ⟨Response.empty, some .errUnknownMethod, []⟩)

/-- `RequestV2.Handle`: the quorum-GET rewrite followed by the method switch.
The first component of the result is the request object as the caller's
pointer sees it afterwards (the Go code mutates `r.Method` in place). -/
def RequestV2.Handle (r : RequestV2) (v2api : RequestV2Handler) : RequestV2 × HResult :=
  handleSwitch (if r.method = "GET" ∧ r.quorum then { r with method := "QGET" } else r) v2api

/-- `EtcdServer.Do`: stamp a fresh id on the local copy of the request,
dispatch it, then overwrite the response's Term and Index with the server's
current term and committed index. -/
def EtcdServer.Do (s : EtcdServer) (r : RequestV2) (ev : WaitEvent) : HResult :=
  let r := { r with id := s.nextID }
  let hr := (RequestV2.Handle r (reqV2HandlerEtcdServer s ev)).2
  ⟨{ hr.resp with term := s.term, index := s.committedIndex }, hr.err, hr.effects⟩

/-- True when the trace touches neither the Pending-Call Table nor the
consensus propose primitive. -/
def consensusFree (effects : List Effect) : Bool :=
  effects.all fun e =>
    match e with
    | .register _ => false
    | .propose _ => false
    | _ => true

/-- A concrete store for witnesses. -/
def sampleStore : V2Store where
  get := fun _ _ _ => (some 1, none)
  watch := fun _ _ _ _ => (some 2, none)

/-- A concrete server for witnesses: serialization always succeeds. -/
def sampleServer : EtcdServer where
  nextID := 5
  term := 7
  committedIndex := 9
  v2store := sampleStore
  marshal := fun r => .ok [r.id]
  parseProposeCtxErr := fun ce _ =>
    match ce with
    | .canceled => .errCanceled
    | .deadlineExceeded => .errTimeout

/-- A concrete mutating request for witnesses. -/
def sampleReq : RequestV2 := { id := 5, method := "PUT" }

/-- C2: once the command marshalled (so a slot is registered and the command
proposed), `processRaftRequest` returns exactly the outcome of whichever
event fired: the delivered response with its own `Err`; the classified
context error, after retiring the slot with `Trigger(id, nil)`; or the fixed
`ErrStopped` with the slot left untouched. -/
theorem processRaftRequest_outcomes (s : EtcdServer) (r : RequestV2) (ev : WaitEvent)
    (data : List Nat) (h : s.marshal r = .ok data) :
    (∀ x, ev = .delivered x →
        processRaftRequest s r ev = ⟨x, x.err, [.register r.id, .propose data]⟩) ∧
    (∀ ce elapsed, ev = .ctxDone ce elapsed →
        processRaftRequest s r ev =
          ⟨Response.empty, some (s.parseProposeCtxErr ce elapsed),
            [.register r.id, .propose data, .trigger r.id]⟩) ∧
    (ev = .stopped →
        processRaftRequest s r ev =
          ⟨Response.empty, some .errStopped, [.register r.id, .propose data]⟩) := by
  refine ⟨fun x hx => ?_, fun ce elapsed hc => ?_, fun hs => ?_⟩ <;>
    subst_vars <;> simp [processRaftRequest, h]

/-- Witness for C2 on the shutdown path at a concrete server and request. -/
theorem processRaftRequest_outcomes_witness :
    processRaftRequest sampleServer sampleReq .stopped =
      ⟨Response.empty, some .errStopped, [.register 5, .propose [5]]⟩ :=
  (processRaftRequest_outcomes sampleServer sampleReq .stopped [5] rfl).2.2 rfl

/-- C3: any method outside {POST, PUT, DELETE, QGET, GET, HEAD} makes
`Handle` return `ErrUnknownMethod` with the empty `Response`, the request
unchanged, and an empty effect trace: no slot registered, nothing proposed. -/
theorem handle_unknown_method (r : RequestV2) (v2api : RequestV2Handler)
    (h : r.method ∉ (["POST", "PUT", "DELETE", "QGET", "GET", "HEAD"] : List String)) :
    RequestV2.Handle r v2api = (r, ⟨Response.empty, some .errUnknownMethod, []⟩) := by
  simp only [List.mem_cons, List.not_mem_nil, or_false, not_or] at h
  obtain ⟨h1, h2, h3, h4, h5, h6⟩ := h
  simp [RequestV2.Handle, handleSwitch, h1, h2, h3, h4, h5, h6]

/-- A request with a method no handler recognizes. -/
def bogusReq : RequestV2 := { id := 3, method := "BOGUS" }

/-- Witness for C3: a concrete unknown method on the concrete server. -/
theorem handle_unknown_method_witness :
    RequestV2.Handle bogusReq (reqV2HandlerEtcdServer sampleServer .stopped) =
      (bogusReq, ⟨Response.empty, some .errUnknownMethod, []⟩) :=
  handle_unknown_method bogusReq (reqV2HandlerEtcdServer sampleServer .stopped) (by decide)

/-- C4: a quorum GET is rewritten to QGET and routed to the consensus path
(`processRaftRequest`); a non-quorum GET and a HEAD are executed against the
local store handler, whose effect trace never registers a slot nor proposes. -/
theorem handle_get_routing (s : EtcdServer) (ev : WaitEvent) (r : RequestV2) :
    (RequestV2.Handle { r with method := "GET", quorum := true }
        (reqV2HandlerEtcdServer s ev) =
      ({ r with method := "QGET", quorum := true },
        processRaftRequest s { r with method := "QGET", quorum := true } ev)) ∧
    (RequestV2.Handle { r with method := "GET", quorum := false }
        (reqV2HandlerEtcdServer s ev) =
      ({ r with method := "GET", quorum := false },
        reqV2HandlerStore.Get s.v2store { r with method := "GET", quorum := false })) ∧
    consensusFree
      (reqV2HandlerStore.Get s.v2store { r with method := "GET", quorum := false }).effects
        = true ∧
    (RequestV2.Handle { r with method := "HEAD" }
        (reqV2HandlerEtcdServer s ev) =
      ({ r with method := "HEAD" },
        reqV2HandlerStore.Head s.v2store { r with method := "HEAD" })) ∧
    consensusFree
      (reqV2HandlerStore.Head s.v2store { r with method := "HEAD" }).effects
        = true := by
  refine ⟨rfl, rfl, ?_, rfl, ?_⟩
  · cases hw : r.wait <;> simp [reqV2HandlerStore.Get, consensusFree, hw]
  · simp [reqV2HandlerStore.Head, consensusFree]

/-- A quorum GET request. -/
def getQuorumReq : RequestV2 := { id := 1, method := "GET", quorum := true }

/-- C9 counterexample: dispatch does mutate a request after construction —
`Handle` rewrites a quorum GET's `Method` field in place from "GET" to
"QGET", so the object the caller's pointer refers to has changed. -/
theorem request_mutation_counterexample :
    getQuorumReq.method = "GET" ∧
    (RequestV2.Handle getQuorumReq
        (reqV2HandlerEtcdServer sampleServer .stopped)).1.method = "QGET" ∧
    (RequestV2.Handle getQuorumReq
        (reqV2HandlerEtcdServer sampleServer .stopped)).1 ≠ getQuorumReq := by
  refine ⟨rfl, rfl, ?_⟩
  decide

/-- C9 (amended): the only field the dispatch pipeline mutates on the request
object is `Method`, rewritten to "QGET" exactly for a quorum GET (besides
`Do` stamping a fresh id on its private copy); every other field, and every
other request, passes through `Handle` unchanged. -/
theorem handle_request_frame (r : RequestV2) (v2api : RequestV2Handler) :
    (RequestV2.Handle r v2api).1 =
      if r.method = "GET" ∧ r.quorum then { r with method := "QGET" } else r := by
  have hs : ∀ q : RequestV2, (handleSwitch q v2api).1 = q := by
    intro q
    unfold handleSwitch
    split_ifs <;> rfl
  unfold RequestV2.Handle
  exact hs _

/-- C10: whatever the handler did — success, typed error, unknown method —
`Do` overwrites the response's Term and Index with the server's current term
and committed index just before returning. -/
theorem do_overwrites_term_index (s : EtcdServer) (r : RequestV2) (ev : WaitEvent) :
    (EtcdServer.Do s r ev).resp.term = s.term ∧
    (EtcdServer.Do s r ev).resp.index = s.committedIndex :=
  ⟨rfl, rfl⟩

/-! ## The Pending-Call Table and the slot lifecycle of one call. -/

/-- Modelled from the spec: the Pending-Call Table (§4.1; the `pkg/wait`
implementation behind `s.w.Register` / `s.w.Trigger` is not among the
sources).  `slots` are the RequestIDs with an open, undelivered slot. -/
structure WaitTable where
  slots : List Nat
deriving DecidableEq

/-- Modelled from the spec: `register(id)` creates and stores a new slot for
`id` (callers must use fresh ids). -/
def WaitTable.register (t : WaitTable) (id : Nat) : WaitTable :=
  ⟨id :: t.slots⟩

/-- Modelled from the spec: `trigger(id, result)` delivers into the slot for
`id` if one exists and removes it (`true` = a waiter was completed);
triggering a non-existent id is a silent no-op.  It is a total function: it
never panics and never blocks. -/
def WaitTable.trigger (t : WaitTable) (id : Nat) : WaitTable × Bool :=
  if id ∈ t.slots then (⟨t.slots.filter (fun x => x ≠ id)⟩, true) else (t, false)

/-- How each traced effect acts on the Pending-Call Table (store and
consensus effects leave it unchanged). -/
def applyEffect (t : WaitTable) (e : Effect) : WaitTable :=
  match e with
  | .register id => t.register id
  | .trigger id => (t.trigger id).1
  | _ => t

/-- The table state after a trace, starting from an empty table. -/
def runTrace (effects : List Effect) : WaitTable :=
  effects.foldl applyEffect ⟨[]⟩

/-- How many times a trigger in the trace actually completes a waiter on
slot `id`. -/
def deliveryCount (t : WaitTable) (effects : List Effect) (id : Nat) : Nat :=
  match effects with
  | [] => 0
  | e :: rest =>
    match e with
    | .trigger i =>
        (if i = id ∧ ((t.trigger i).2 = true) then 1 else 0) +
          deliveryCount (t.trigger i).1 rest id
    | _ => deliveryCount (applyEffect t e) rest id

/-- Modelled from the spec: the Apply-Result Notifier (§4.4) completes a
delivered wait by calling `trigger(id, result)` on the table; appending that
call to the dispatcher's own effects gives the complete table trace of one
call through `processRaftRequest`. -/
def fullTrace (s : EtcdServer) (r : RequestV2) (ev : WaitEvent) : List Effect :=
  (processRaftRequest s r ev).effects ++
    (match ev with
     | .delivered _ => [Effect.trigger r.id]
     | _ => [])

/-- C5 counterexample: on the shutdown path the caller has stopped waiting —
`ErrStopped` was returned — yet the Pending-Call Table still holds the slot
for its RequestID (the Go code abandons it without a `Trigger`). -/
theorem pending_slot_claim_counterexample :
    (processRaftRequest sampleServer sampleReq .stopped).err = some .errStopped ∧
    5 ∈ (runTrace (fullTrace sampleServer sampleReq .stopped)).slots := by
  refine ⟨rfl, ?_⟩
  decide

/-- C5 (amended): for one registered call (marshal succeeded), at most one
trigger completes the caller's wait; after a delivery or a cancellation the
table holds no slot for the RequestID — but after the shutdown outcome the
abandoned slot remains registered; and a trigger on an id without a slot
(such as a second trigger after the first) is a no-op that never panics or
blocks. -/
theorem pending_slot_lifecycle (s : EtcdServer) (r : RequestV2) (ev : WaitEvent)
    (data : List Nat) (h : s.marshal r = .ok data) :
    deliveryCount ⟨[]⟩ (fullTrace s r ev) r.id ≤ 1 ∧
    (ev ≠ .stopped → r.id ∉ (runTrace (fullTrace s r ev)).slots) ∧
    (ev = .stopped → r.id ∈ (runTrace (fullTrace s r ev)).slots) ∧
    (∀ t : WaitTable, r.id ∉ t.slots → t.trigger r.id = (t, false)) := by
  have htr : ∀ t : WaitTable, ∀ id, id ∉ t.slots → t.trigger id = (t, false) := by
    intro t id hid
    simp [WaitTable.trigger, hid]
  refine ⟨?_, ?_, ?_, fun t => htr t r.id⟩
  · cases ev <;>
      simp [fullTrace, processRaftRequest, h, deliveryCount, applyEffect,
        WaitTable.register, WaitTable.trigger]
  · intro hne
    cases ev with
    | delivered x =>
        simp [fullTrace, processRaftRequest, h, runTrace, applyEffect,
          WaitTable.register, WaitTable.trigger, List.filter]
    | ctxDone ce elapsed =>
        simp [fullTrace, processRaftRequest, h, runTrace, applyEffect,
          WaitTable.register, WaitTable.trigger, List.filter]
    | stopped => exact absurd rfl hne
  · intro hst
    subst hst
    simp [fullTrace, processRaftRequest, h, runTrace, applyEffect,
      WaitTable.register]

/-- Witness for C5's amended theorem: the cancellation path of the concrete
call retires the slot and counts a single delivery overall. -/
theorem pending_slot_lifecycle_witness :
    deliveryCount ⟨[]⟩ (fullTrace sampleServer sampleReq (.ctxDone .canceled 3)) 5 ≤ 1 ∧
    5 ∉ (runTrace (fullTrace sampleServer sampleReq (.ctxDone .canceled 3))).slots :=
  ⟨(pending_slot_lifecycle sampleServer sampleReq (.ctxDone .canceled 3) [5] rfl).1,
   (pending_slot_lifecycle sampleServer sampleReq (.ctxDone .canceled 3) [5] rfl).2.1
     (by decide)⟩

end Etcd
